import Mathlib

/-!
Verification of the jobs-agent repository (src/agent.ts): a shallow embedding of
the three tool implementations (`fetch_and_parse_html`, `list_coder_jobs`,
`get_coder_job_details`) and of the spec-described document reader, together
with theorems settling the frozen claims about them.

External collaborators are modelled at their interface boundary: the HTTP
transport is a response value (status, status text, body), the cheerio HTML
parser is a pre-parsed document value, `JSON.parse` output is a `Json` tree, and
the WHATWG URL resolver used for relative apply-links is an oracle function.
Everything downstream of those boundaries is translated from the source.
-/

set_option maxRecDepth 8000

namespace JobsAgent

/-! ## JSON values (the result of `JSON.parse` on the inline payloads) -/

/-- A parsed JSON value. `JSON.parse` never produces `undefined`, so JavaScript's
`undefined` is represented at use sites by `Option Json` (`none` = undefined). -/
inductive Json where
  | null
  | bool (b : Bool)
  | num (n : Int)
  | str (s : String)
  | arr (elems : List Json)
  | obj (fields : List (String × Json))

def Json.isNull : Json → Bool
  | Json.null => true
  | _ => false

/-- First binding of a key in an object's field list. -/
def lookupField : List (String × Json) → String → Option Json
  | [], _ => none
  | (k', v) :: fs, k => if k' = k then some v else lookupField fs k

/-- JavaScript property read `v[k]` as it behaves on parsed-JSON values:
field lookup on objects, `undefined` (here `none`) on everything else.
Reading a property of `null` only occurs behind optional chaining in the
source, which short-circuits to `undefined`, so `none` is also returned for
`Json.null`. -/
def jsGet? (v : Json) (k : String) : Option Json :=
  match v with
  | Json.obj fs => lookupField fs k
  | _ => none

/-- Optional-chaining path access `v?.k₁?.k₂...`. -/
def jsChain (v : Json) (ks : List String) : Option Json :=
  ks.foldl (fun acc k => acc.bind (fun w => jsGet? w k)) (some v)

/-- JavaScript truthiness of a parsed-JSON value. -/
def jsTruthy : Json → Bool
  | Json.null => false
  | Json.bool b => b
  | Json.num n => n != 0
  | Json.str s => !s.data.isEmpty
  | Json.arr _ => true
  | Json.obj _ => true

def jsTruthyOpt : Option Json → Bool
  | none => false
  | some v => jsTruthy v

/-- Is this `undefined` or `null` (the values the `??` operator falls through on)? -/
def jsNullish : Option Json → Bool
  | none => true
  | some Json.null => true
  | some _ => false

/-- The nullish-coalescing operator `a ?? b`. -/
def jsCoal : Option Json → Json → Json
  | none, b => b
  | some Json.null, b => b
  | some v, _ => v

/-- The logical-or operator `a || b` (falls through on any falsy value). -/
def jsOrJ : Option Json → Json → Json
  | none, b => b
  | some v, b => if jsTruthy v then v else b

mutual

/-- JavaScript `String(v)` on parsed-JSON values (template-literal interpolation). -/
def jsToStr : Json → String
  | Json.null => "null"
  | Json.bool b => if b then "true" else "false"
  | Json.num n => toString n
  | Json.str s => s
  | Json.arr xs => String.intercalate "," (jsToStrElems xs)
  | Json.obj _ => "[object Object]"

/-- Array elements under `Array.prototype.toString`: `null` joins as the empty string. -/
def jsToStrElems : List Json → List String
  | [] => []
  | Json.null :: xs => "" :: jsToStrElems xs
  | x :: xs => jsToStr x :: jsToStrElems xs

end

/-- Interpolating a possibly-undefined value into a template literal. -/
def jsTemplate : Option Json → String
  | none => "undefined"
  | some v => jsToStr v

/-! ## JavaScript string operations (modelled character-wise) -/

/-- `String.prototype.trim`. -/
def trimChars (s : String) : String :=
  String.mk (((s.data.dropWhile Char.isWhitespace).reverse.dropWhile Char.isWhitespace).reverse)

def splitCharAux (c : Char) : List Char → List (List Char)
  | [] => [[]]
  | d :: rest =>
    if d = c then [] :: splitCharAux c rest
    else
      match splitCharAux c rest with
      | [] => [[d]]
      | g :: gs => (d :: g) :: gs

/-- `String.prototype.split` with a single-character separator. -/
def splitChar (c : Char) (s : String) : List String :=
  (splitCharAux c s.data).map String.mk

/-- `replace(/\s+/g, " ")`: map whitespace to a space and collapse runs. -/
def collapseRuns : List Char → List Char
  | [] => []
  | c :: cs =>
    let c' := if c.isWhitespace then ' ' else c
    match collapseRuns cs with
    | [] => [c']
    | d :: ds => if c' = ' ' && d = ' ' then d :: ds else c' :: d :: ds

/-- `$("body").text().replace(/\s+/g, " ").trim()` applied to the body text. -/
def normalizeText (s : String) : String :=
  trimChars (String.mk (collapseRuns s.data))

/-- The truncation step of the text extractor (src/agent.ts lines 126-128):
`if (text.length > limit) text = text.slice(0, limit)`. -/
def truncateTo (limit : Nat) (s : String) : String :=
  if limit < s.length then String.mk (s.data.take limit) else s

/-! ## HTML documents as seen through the cheerio query layer -/

/-- An anchor element: its `href` attribute (`none` when the attribute is absent)
and its visible text. -/
structure Anchor where
  href : Option String
  text : String

/-- The cheerio view of a parsed HTML document: exactly the query results the
extractor reads (src/agent.ts lines 84-130), in document order. -/
structure HtmlDoc where
  ogTitle : Option String
  titleTagText : String
  metaDescription : Option String
  ogDescription : Option String
  h1Texts : List String
  h2Texts : List String
  anchors : List Anchor
  bodyText : String

structure Link where
  href : String
  text : String

/-- The five selectable extraction fields of `fetch_and_parse_html`. -/
inductive Field where
  | title
  | description
  | headings
  | links
  | text
deriving DecidableEq

def fieldName : Field → String
  | Field.title => "title"
  | Field.description => "description"
  | Field.headings => "headings"
  | Field.links => "links"
  | Field.text => "text"

/-- Default for the `extract` argument (src/agent.ts lines 68-74). -/
def allExtractFields : List Field :=
  [Field.title, Field.description, Field.headings, Field.links, Field.text]

/-- `a || b` on an optional attribute value against a string fallback. -/
def jsOrStr (a : Option String) (b : String) : String :=
  match a with
  | some s => if s.data.isEmpty then b else s
  | none => b

/-- `$(sel).map((_, el) => $(el).text().trim()).get().filter(Boolean)`. -/
def pickHeadings (texts : List String) : List String :=
  (texts.map trimChars).filter (fun t => !t.data.isEmpty)

/-- The links extraction (src/agent.ts lines 112-122): anchors carrying an
`href` attribute, mapped to raw href (`|| ""`) and trimmed text, then filtered
to truthy (non-empty) hrefs, then capped with `.slice(0, 500)`. -/
def anchorLinks (anchors : List Anchor) : List Link :=
  (((anchors.filter (fun a => a.href.isSome)).map
      (fun a => Link.mk (a.href.getD "") (trimChars a.text))).filter
      (fun l => l.href != "")).take 500

/-- The result object of `fetch_and_parse_html`: `none` models an absent key. -/
structure ParseOut where
  url : String
  status : Nat
  contentType : String
  title : Option String
  description : Option String
  headings : Option (List String × List String)
  links : Option (List Link)
  text : Option String

/-- The extraction body of `fetch_and_parse_html` (src/agent.ts lines 67-132),
after the fetch has succeeded and cheerio has parsed the body. -/
def parseHtmlCore (url : String) (status : Nat) (contentType : String) (doc : HtmlDoc)
    (extract : Option (List Field)) (maxContentChars : Option Nat) : ParseOut :=
  let ex := extract.getD allExtractFields
  let mcc := maxContentChars.getD 10000
  { url := url
    status := status
    contentType := contentType
    title :=
      if Field.title ∈ ex then some (trimChars (jsOrStr doc.ogTitle doc.titleTagText)) else none
    description :=
      if Field.description ∈ ex then
        some (trimChars (jsOrStr doc.metaDescription (jsOrStr doc.ogDescription ""))) else none
    headings :=
      if Field.headings ∈ ex then some (pickHeadings doc.h1Texts, pickHeadings doc.h2Texts)
      else none
    links := if Field.links ∈ ex then some (anchorLinks doc.anchors) else none
    text :=
      if Field.text ∈ ex then some (truncateTo mcc (normalizeText doc.bodyText)) else none }

/-- The set of keys present on the result object. -/
def keysOf (o : ParseOut) : List String :=
  ["url", "status", "contentType"]
    ++ (if o.title.isSome then ["title"] else [])
    ++ (if o.description.isSome then ["description"] else [])
    ++ (if o.headings.isSome then ["headings"] else [])
    ++ (if o.links.isSome then ["links"] else [])
    ++ (if o.text.isSome then ["text"] else [])

/-- Specification-side view of the links extraction: one pass pairing each
anchor that has a non-empty `href` attribute with its trimmed text. -/
def linkPairsSpec (anchors : List Anchor) : List Link :=
  anchors.filterMap (fun a =>
    match a.href with
    | some h => if h = "" then none else some (Link.mk h (trimChars a.text))
    | none => none)

/-! ## The HTTP boundary -/

/-- Status line of a fetch response. -/
structure HttpMeta where
  status : Nat
  statusText : String

/-- `Response.ok`: status in the inclusive range 200-299. -/
def statusOk (status : Nat) : Bool := 200 ≤ status && status ≤ 299

/-- The whole `fetch_and_parse_html` tool (src/agent.ts lines 51-133): the
non-ok guard throws before the body is consulted; `contentType` models
`res.headers.get("content-type") ?? ""`; `doc` is the cheerio parse of the body. -/
def fetchAndParseHtmlTool (url : String) (extract : Option (List Field))
    (maxContentChars : Option Nat) (m : HttpMeta) (contentType : Option String)
    (doc : HtmlDoc) : Except String ParseOut :=
  if statusOk m.status then
    .ok (parseHtmlCore url m.status (contentType.getD "") doc extract maxContentChars)
  else
    .error ("Failed to fetch " ++ url ++ ": " ++ toString m.status ++ " " ++ m.statusText)

/-! ## `list_coder_jobs` (src/agent.ts lines 136-182) -/

def sourceUrl : String := "https://jobs.ashbyhq.com/Coder"

/-- One output record of `list_coder_jobs` (lines 164-178). `id` keeps the raw
(possibly undefined) payload value; the other payload-derived fields are
defaulted with `??` in the source and so are never undefined. -/
structure JobSummary where
  id : Option Json
  title : Json
  department : Json
  team : Json
  location : Json
  workplaceType : Json
  employmentType : Json
  isListed : Json
  publishedDate : Json
  compensationTierSummary : Json
  jobUrl : String

def flagKey : String := "shouldDisplayCompensationOnJobBoard"

/-- The per-posting projection `(p: any) => ({ ... })` (lines 164-178).
`none` models the `TypeError` thrown when `p` is `null` and `p.id` is read. -/
def makeJob (p : Json) : Option JobSummary :=
  match p with
  | Json.null => none
  | _ =>
    some
      { id := jsGet? p "id"
        title := jsCoal (jsGet? p "title") (Json.str "")
        department := jsCoal (jsGet? p "departmentName") Json.null
        team := jsCoal (jsGet? p "teamName") Json.null
        location := jsCoal (jsGet? p "locationName") Json.null
        workplaceType := jsCoal (jsGet? p "workplaceType") Json.null
        employmentType := jsCoal (jsGet? p "employmentType") Json.null
        isListed := jsCoal (jsGet? p "isListed") Json.null
        publishedDate := jsCoal (jsGet? p "publishedDate") Json.null
        compensationTierSummary :=
          if jsTruthyOpt (jsGet? p flagKey) then
            jsCoal (jsGet? p "compensationTierSummary") Json.null
          else Json.null
        jobUrl := sourceUrl ++ "/" ++ jsTemplate (jsGet? p "id") }

/-- The postings selection (lines 160-163):
`appData?.jobBoard?.jobPostings ?? appData?.jobPostingList?.jobPostings ?? []`. -/
def selectPostings (appData : Json) : Json :=
  jsCoal (jsChain appData ["jobBoard", "jobPostings"])
    (jsCoal (jsChain appData ["jobPostingList", "jobPostings"]) (Json.arr []))

structure ListResult where
  sourceUrl : String
  count : Nat
  jobs : List JobSummary

/-- `list_coder_jobs` from the parsed inline payload onward (lines 160-180).
A non-array postings value makes `(postings as any[]).map` throw a `TypeError`;
so does a `null` entry inside the array. -/
def listJobsFromAppData (appData : Json) : Except String ListResult :=
  match selectPostings appData with
  | Json.arr ps =>
    match ps.mapM makeJob with
    | some jobs => .ok ⟨sourceUrl, jobs.length, jobs⟩
    | none => .error "TypeError: Cannot read properties of null"
  | _ => .error "TypeError: postings.map is not a function"

/-- The whole `list_coder_jobs` tool (lines 140-181). `appData` models the
outcome of the `window.__appData` regex match plus `JSON.parse` on the body
(`none` = marker absent). The non-ok guard throws before any of that. -/
def listCoderJobsTool (m : HttpMeta) (appData : Option Json) : Except String ListResult :=
  if statusOk m.status then
    match appData with
    | none => .error "Ashby inline appData not found"
    | some a => listJobsFromAppData a
  else
    .error ("Failed to fetch listings: " ++ toString m.status ++ " " ++ m.statusText)

/-! ## `get_coder_job_details` (src/agent.ts lines 184-314) -/

/-- The job-id derivation (lines 209-217) from `new URL(url).pathname`:
split on "/", drop empty segments, take the last (`?? null`). The `pathname`
argument is the URL parser's output, `none` when `new URL(url)` throws. -/
def jobIdOfPathname (pathname : Option String) : Option String :=
  match pathname with
  | none => none
  | some p => ((splitChar '/' p).filter (fun s => s ≠ "")).getLast?

mutual

/-- The recursive search `deepFind` (lines 219-235): `null` (and `undefined`,
which cannot occur in parsed JSON) is rejected before the predicate is tested;
otherwise the node itself is tested first, then array elements in order, then
object values in key order. -/
def deepFind (p : Json → Bool) : Json → Option Json
  | Json.null => none
  | Json.bool b => if p (Json.bool b) then some (Json.bool b) else none
  | Json.num n => if p (Json.num n) then some (Json.num n) else none
  | Json.str s => if p (Json.str s) then some (Json.str s) else none
  | Json.arr xs => if p (Json.arr xs) then some (Json.arr xs) else deepFindList p xs
  | Json.obj fs => if p (Json.obj fs) then some (Json.obj fs) else deepFindFields p fs

def deepFindList (p : Json → Bool) : List Json → Option Json
  | [] => none
  | x :: xs =>
    match deepFind p x with
    | some r => some r
    | none => deepFindList p xs

def deepFindFields (p : Json → Bool) : List (String × Json) → Option Json
  | [] => none
  | (_, v) :: fs =>
    match deepFind p v with
    | some r => some r
    | none => deepFindFields p fs

end

mutual

/-- Depth-first preorder listing of the nodes of a JSON tree: each node before
its children, array elements and object values in order. -/
def jsonPreorder : Json → List Json
  | Json.null => [Json.null]
  | Json.bool b => [Json.bool b]
  | Json.num n => [Json.num n]
  | Json.str s => [Json.str s]
  | Json.arr xs => Json.arr xs :: preorderList xs
  | Json.obj fs => Json.obj fs :: preorderFields fs

def preorderList : List Json → List Json
  | [] => []
  | x :: xs => jsonPreorder x ++ preorderList xs

def preorderFields : List (String × Json) → List Json
  | [] => []
  | (_, v) :: fs => jsonPreorder v ++ preorderFields fs

end

/-- Candidate-A predicate (lines 237-245): an object with a truthy `id`, a
string `title`, and — when a job id was derived from the URL — `id === jobId`.
`typeof v === "object"` also admits arrays, but an array's `id` property is
`undefined`, hence falsy. -/
def isJobRecord (jobId : Option String) (v : Json) : Bool :=
  match v with
  | Json.obj fs =>
    jsTruthyOpt (lookupField fs "id")
      && (match lookupField fs "title" with
          | some (Json.str _) => true
          | _ => false)
      && (match jobId with
          | none => true
          | some j =>
            match lookupField fs "id" with
            | some (Json.str s) => s = j
            | _ => false)
  | _ => false

/-- Candidate-B wrapper predicate (lines 247-254): an object with a truthy
`posting` whose `title` is a string. -/
def isPostingWrapper (v : Json) : Bool :=
  match v with
  | Json.obj fs =>
    (match lookupField fs "posting" with
     | some p => jsTruthy p
         && (match jsGet? p "title" with
             | some (Json.str _) => true
             | _ => false)
     | none => false)
  | _ => false

/-- The JSON-LD selection (lines 257-270), applied to the parsed first
`application/ld+json` block (`none` = no block, or `JSON.parse` threw):
an array is searched for the first element typed `JobPosting`; a lone value is
kept only if it is so typed. -/
def selectLdjson : Option Json → Option Json
  | none => none
  | some (Json.arr xs) =>
    xs.find? (fun x =>
      match jsGet? x "@type" with
      | some (Json.str s) => s = "JobPosting"
      | _ => false)
  | some v =>
    match jsGet? v "@type" with
    | some (Json.str s) => if s = "JobPosting" then some v else none
    | _ => none

/-- The apply-link resolution (lines 287-298). `applyHref` is the captured href
of the first anchor whose text contains "apply" (`none` = no regex match);
`resolve` is the WHATWG `new URL(href, base)` oracle (`none` = it throws, which
the source swallows). -/
def resolveApplyUrl (resolve : String → String → Option String) (url : String)
    (applyHref : Option String) : Option String :=
  match applyHref with
  | none => none
  | some abs => if abs.startsWith "http" then some abs else resolve abs url

/-- A URL-resolution oracle that always throws; used for concrete inputs whose
apply link is absent. -/
def noResolve : String → String → Option String := fun _ _ => none

/-- The base-record selection (lines 237-272): candidate A by `deepFind` with
the job-record predicate, candidate B as the `posting` of the first wrapper
node, merged whole-record by `posting ?? jobPosting ?? {}`. -/
def detailBase (jobId : Option String) (appData : Json) : Json :=
  let jobPosting := deepFind (isJobRecord jobId) appData
  let postingWrapper := deepFind isPostingWrapper appData
  let posting := postingWrapper.bind (fun w => jsGet? w "posting")
  jsCoal posting (jsCoal jobPosting (Json.obj []))

/-- The result object of `get_coder_job_details` (lines 300-312). -/
structure JobDetail where
  id : Option String
  url : String
  title : Json
  department : Json
  team : Json
  location : Json
  employmentType : Json
  publishedDate : Json
  compensationTierSummary : Json
  descriptionHtml : Json
  applyUrl : Option String

/-- `get_coder_job_details` from the parsed inline payload onward
(lines 209-312): field merge per lines 274-285. -/
def getJobDetailCore (resolve : String → String → Option String) (url : String)
    (pathname : Option String) (appData : Json) (ldjsonParsed : Option Json)
    (applyHref : Option String) : JobDetail :=
  let jobId := jobIdOfPathname pathname
  let ldjson := selectLdjson ldjsonParsed
  let base := detailBase jobId appData
  { id := jobId
    url := url
    title := jsOrJ (jsGet? base "title") (jsOrJ (ldjson.bind (fun l => jsGet? l "title")) (Json.str ""))
    department := jsCoal (jsGet? base "departmentName") Json.null
    team := jsCoal (jsGet? base "teamName") Json.null
    location := jsCoal (jsGet? base "locationName") Json.null
    employmentType :=
      jsCoal (jsGet? base "employmentType")
        (jsCoal (ldjson.bind (fun l => jsGet? l "employmentType")) Json.null)
    publishedDate :=
      jsCoal (jsGet? base "publishedDate")
        (jsCoal (ldjson.bind (fun l => jsGet? l "datePosted")) Json.null)
    compensationTierSummary := jsCoal (jsGet? base "compensationTierSummary") Json.null
    descriptionHtml :=
      jsOrJ (jsGet? base "descriptionHtml")
        (jsOrJ (ldjson.bind (fun l => jsGet? l "description")) (Json.str ""))
    applyUrl := resolveApplyUrl resolve url applyHref }

/-- The whole `get_coder_job_details` tool (lines 188-313): non-ok guard first,
then the `window.__appData` marker check, then the pure detail construction. -/
def getCoderJobDetailsTool (resolve : String → String → Option String) (url : String)
    (pathname : Option String) (m : HttpMeta) (appData : Option Json)
    (ldjsonParsed : Option Json) (applyHref : Option String) : Except String JobDetail :=
  if statusOk m.status then
    match appData with
    | none => .error "Ashby inline appData not found on job page"
    | some a => .ok (getJobDetailCore resolve url pathname a ldjsonParsed applyHref)
  else
    .error ("Failed to fetch job page: " ++ toString m.status ++ " " ++ m.statusText)

/-! ## `readDocument` (Public Document Reader) -/

inductive DocError where
  | missingUrl
deriving DecidableEq

/-- Modelled from the spec: the Public Document Reader (`readDocument`, spec
§4.5) has no implementation under src/; its URL-resolution step is modelled
from the spec's words — "Resolution order: explicit `url` argument, else a
single configured default link, else the first of a configured comma-separated
list of default links; fail with `MissingUrl` if none is available." -/
def resolveDocumentUrl (url defaultLink defaultLinkList : Option String) :
    Except DocError String :=
  match url with
  | some u => .ok u
  | none =>
    match defaultLink with
    | some d => .ok d
    | none =>
      match defaultLinkList with
      | some l =>
        match splitChar ',' l with
        | x :: _ => .ok x
        | [] => .error DocError.missingUrl
      | none => .error DocError.missingUrl

/-- A trace of one `readDocument` call: the URLs fetched, and the outcome. -/
structure DocTrace where
  requests : List String
  outcome : Except DocError String

/-- Modelled from the spec: `readDocument` resolves its URL first and only then
fetches it (`fetchBody` is the transport oracle); on `MissingUrl` no request is
issued. -/
def readDocumentModel (url defaultLink defaultLinkList : Option String)
    (fetchBody : String → String) : DocTrace :=
  match resolveDocumentUrl url defaultLink defaultLinkList with
  | .error e => ⟨[], .error e⟩
  | .ok u => ⟨[u], .ok (fetchBody u)⟩

/-! ## Concrete inputs used by counterexamples and witnesses -/

/-- A posting as it appears in the job-board payload. -/
def c3post1 : Json := Json.obj [("id", Json.str "uuid-1"), ("title", Json.str "Sales Engineer")]

def c3post2 : Json :=
  Json.obj [("id", Json.str "uuid-2"), ("title", Json.str "Platform Engineer")]

/-- Payload whose primary postings path is absent and whose alternate path has
two entries. -/
def c3fixAlternate : Json :=
  Json.obj [("jobPostingList", Json.obj [("jobPostings", Json.arr [c3post1, c3post2])])]

/-- Payload carrying the postings under the primary path. -/
def c3fixPrimary : Json :=
  Json.obj [("jobBoard", Json.obj [("jobPostings", Json.arr [c3post1])])]

/-- Payload whose primary path holds a non-null non-collection while the
alternate path holds a two-entry collection. -/
def c3fixBad : Json :=
  Json.obj
    [("jobBoard", Json.obj [("jobPostings", Json.str "notAnArray")]),
     ("jobPostingList", Json.obj [("jobPostings", Json.arr [c3post1, c3post2])])]

def c3job1 : JobSummary :=
  { id := some (Json.str "uuid-1"), title := Json.str "Sales Engineer",
    department := Json.null, team := Json.null, location := Json.null,
    workplaceType := Json.null, employmentType := Json.null, isListed := Json.null,
    publishedDate := Json.null, compensationTierSummary := Json.null,
    jobUrl := "https://jobs.ashbyhq.com/Coder/uuid-1" }

def c3job2 : JobSummary :=
  { id := some (Json.str "uuid-2"), title := Json.str "Platform Engineer",
    department := Json.null, team := Json.null, location := Json.null,
    workplaceType := Json.null, employmentType := Json.null, isListed := Json.null,
    publishedDate := Json.null, compensationTierSummary := Json.null,
    jobUrl := "https://jobs.ashbyhq.com/Coder/uuid-2" }

/-- A posting whose display flag is `false` while a compensation value is present. -/
def c2posting : Json :=
  Json.obj
    [("id", Json.str "cex-1"), ("title", Json.str "Account Executive"),
     (flagKey, Json.bool false), ("compensationTierSummary", Json.str "$150K - $200K")]

def c2job : JobSummary :=
  { id := some (Json.str "cex-1"), title := Json.str "Account Executive",
    department := Json.null, team := Json.null, location := Json.null,
    workplaceType := Json.null, employmentType := Json.null, isListed := Json.null,
    publishedDate := Json.null, compensationTierSummary := Json.null,
    jobUrl := "https://jobs.ashbyhq.com/Coder/cex-1" }

/-- A job record whose display flag is `false` while a compensation value is present. -/
def c5rec : Json :=
  Json.obj
    [("id", Json.str "r1"), ("title", Json.str "Staff Software Engineer"),
     (flagKey, Json.bool false), ("compensationTierSummary", Json.str "$175K - $210K")]

/-- A job-page payload containing `c5rec`. -/
def c5appData : Json := Json.obj [("jobPosting", c5rec)]

def c5job : JobSummary :=
  { id := some (Json.str "r1"), title := Json.str "Staff Software Engineer",
    department := Json.null, team := Json.null, location := Json.null,
    workplaceType := Json.null, employmentType := Json.null, isListed := Json.null,
    publishedDate := Json.null, compensationTierSummary := Json.null,
    jobUrl := "https://jobs.ashbyhq.com/Coder/r1" }

/-- Candidate B: a nested posting with a title but no department. -/
def c1B : Json := Json.obj [("title", Json.str "Platform Engineer")]

/-- Candidate A: a job record with a department. -/
def c1A : Json :=
  Json.obj
    [("id", Json.str "j1"), ("title", Json.str "Platform Engineer"),
     ("departmentName", Json.str "Engineering")]

/-- A job-page payload containing both a posting wrapper (for B) and a job
record (for A). -/
def c1fix : Json :=
  Json.obj [("wrapper", Json.obj [("posting", c1B)]), ("record", c1A)]

/-- Candidate C: a JSON-LD job-posting block with its own department value. -/
def c1ld : Json :=
  Json.obj [("@type", Json.str "JobPosting"), ("departmentName", Json.str "Marketing")]

def c1wRec : Json :=
  Json.obj
    [("id", Json.str "w1"), ("title", Json.str "Designer"),
     ("departmentName", Json.str "Design")]

/-- A job-page payload with a job record but no posting wrapper. -/
def c1wFix : Json := Json.obj [("record", c1wRec)]

/-- An HTML document with 600 anchors, all with non-empty hrefs. -/
def doc600 : HtmlDoc :=
  { ogTitle := none, titleTagText := "", metaDescription := none, ogDescription := none,
    h1Texts := [], h2Texts := [], anchors := List.replicate 600 ⟨some "https://example.com/x", "t"⟩,
    bodyText := "" }

def emptyDoc : HtmlDoc :=
  { ogTitle := none, titleTagText := "", metaDescription := none, ogDescription := none,
    h1Texts := [], h2Texts := [], anchors := [], bodyText := "" }

def m404 : HttpMeta := ⟨404, "Not Found"⟩

def m500 : HttpMeta := ⟨500, "Internal Server Error"⟩

/-! ## Helper lemmas -/

theorem jsCoal_of_nullish {o : Option Json} (h : jsNullish o = true) (b : Json) :
    jsCoal o b = b := by
  match o with
  | none => rfl
  | some Json.null => rfl
  | some (Json.bool c) => simp [jsNullish] at h
  | some (Json.num n) => simp [jsNullish] at h
  | some (Json.str s) => simp [jsNullish] at h
  | some (Json.arr xs) => simp [jsNullish] at h
  | some (Json.obj fs) => simp [jsNullish] at h

theorem jsCoal_of_some {o : Option Json} {v : Json} (h : o = some v) (hv : v ≠ Json.null)
    (b : Json) : jsCoal o b = v := by
  subst h
  match v with
  | Json.null => exact absurd rfl hv
  | Json.bool c => rfl
  | Json.num n => rfl
  | Json.str s => rfl
  | Json.arr xs => rfl
  | Json.obj fs => rfl

theorem splitChar_ne_nil (c : Char) (s : String) : splitChar c s ≠ [] := by
  unfold splitChar
  intro h
  rw [List.map_eq_nil_iff] at h
  revert h
  induction s.data with
  | nil => simp [splitCharAux]
  | cons d rest ih =>
    simp only [splitCharAux]
    by_cases hd : d = c
    · simp [hd]
    · simp only [if_neg hd]
      cases hr : splitCharAux c rest with
      | nil => simp
      | cons g gs => simp

theorem length_filterMap_replicate {α β : Type} (n : Nat) (a : α) (f : α → Option β) (b : β)
    (h : f a = some b) : ((List.replicate n a).filterMap f).length = n := by
  induction n with
  | zero => rfl
  | succ n ih => simp [List.replicate_succ, List.filterMap_cons, h, ih]

theorem anchorLinks_eq_spec (l : List Anchor) : anchorLinks l = (linkPairsSpec l).take 500 := by
  unfold anchorLinks linkPairsSpec
  congr 1
  induction l with
  | nil => rfl
  | cons a t ih =>
    cases ha : a.href with
    | none => simpa [List.filter_cons, List.filterMap_cons, ha] using ih
    | some h =>
      by_cases hh : h = ""
      · subst hh
        simpa [List.filter_cons, List.filterMap_cons, ha] using ih
      · simpa [List.filter_cons, List.filterMap_cons, ha, hh] using ih

mutual

theorem deepFind_eq_preorder (p : Json → Bool) :
    ∀ n : Json, deepFind p n = (jsonPreorder n).find? (fun x => !x.isNull && p x)
  | Json.null => by
    simp [deepFind, jsonPreorder, List.find?, Json.isNull]
  | Json.bool b => by
    cases hp : p (Json.bool b) <;>
      simp [deepFind, jsonPreorder, List.find?, Json.isNull, hp]
  | Json.num n => by
    cases hp : p (Json.num n) <;>
      simp [deepFind, jsonPreorder, List.find?, Json.isNull, hp]
  | Json.str s => by
    cases hp : p (Json.str s) <;>
      simp [deepFind, jsonPreorder, List.find?, Json.isNull, hp]
  | Json.arr xs => by
    have h := deepFindList_eq_preorder p xs
    cases hp : p (Json.arr xs) <;>
      simp [deepFind, jsonPreorder, List.find?, Json.isNull, hp, h]
  | Json.obj fs => by
    have h := deepFindFields_eq_preorder p fs
    cases hp : p (Json.obj fs) <;>
      simp [deepFind, jsonPreorder, List.find?, Json.isNull, hp, h]

theorem deepFindList_eq_preorder (p : Json → Bool) :
    ∀ xs : List Json, deepFindList p xs = (preorderList xs).find? (fun x => !x.isNull && p x)
  | [] => by simp [deepFindList, preorderList, List.find?]
  | x :: xs => by
    have h1 := deepFind_eq_preorder p x
    have h2 := deepFindList_eq_preorder p xs
    simp only [deepFindList, preorderList, List.find?_append, h1, h2]
    cases (jsonPreorder x).find? (fun y => !y.isNull && p y) <;> rfl

theorem deepFindFields_eq_preorder (p : Json → Bool) :
    ∀ fs : List (String × Json),
      deepFindFields p fs = (preorderFields fs).find? (fun x => !x.isNull && p x)
  | [] => by simp [deepFindFields, preorderFields, List.find?]
  | (k, v) :: fs => by
    have h1 := deepFind_eq_preorder p v
    have h2 := deepFindFields_eq_preorder p fs
    simp only [deepFindFields, preorderFields, List.find?_append, h1, h2]
    cases (jsonPreorder v).find? (fun y => !y.isNull && p y) <;> rfl

end

theorem mem_fields_iff (ex : List Field) (k : String) :
    (∃ f, f ∈ ex ∧ fieldName f = k) ↔
      ((Field.title ∈ ex ∧ k = "title") ∨ (Field.description ∈ ex ∧ k = "description")
        ∨ (Field.headings ∈ ex ∧ k = "headings") ∨ (Field.links ∈ ex ∧ k = "links")
        ∨ (Field.text ∈ ex ∧ k = "text")) := by
  constructor
  · rintro ⟨f, hf, rfl⟩
    cases f with
    | title => exact Or.inl ⟨hf, rfl⟩
    | description => exact Or.inr (Or.inl ⟨hf, rfl⟩)
    | headings => exact Or.inr (Or.inr (Or.inl ⟨hf, rfl⟩))
    | links => exact Or.inr (Or.inr (Or.inr (Or.inl ⟨hf, rfl⟩)))
    | text => exact Or.inr (Or.inr (Or.inr (Or.inr ⟨hf, rfl⟩)))
  · rintro (⟨h, rfl⟩ | ⟨h, rfl⟩ | ⟨h, rfl⟩ | ⟨h, rfl⟩ | ⟨h, rfl⟩)
    exacts [⟨Field.title, h, rfl⟩, ⟨Field.description, h, rfl⟩, ⟨Field.headings, h, rfl⟩,
      ⟨Field.links, h, rfl⟩, ⟨Field.text, h, rfl⟩]

/-! ## Claim theorems -/

/-- C10: the text truncation of the metadata extractor is idempotent — for every
string and every positive limit, the truncated result has length at most the
limit, and truncating the already-truncated result to the same limit yields an
identical string. -/
theorem c10_truncation_idempotent : ∀ (s : String) (limit : Nat), 0 < limit →
    (truncateTo limit s).length ≤ limit
      ∧ truncateTo limit (truncateTo limit s) = truncateTo limit s := by
  intro s limit _
  by_cases h : limit < s.length
  · have hlen : (truncateTo limit s).length = limit := by
      show (if limit < s.length then String.mk (s.data.take limit) else s).length = limit
      rw [if_pos h]
      show (s.data.take limit).length = limit
      rw [List.length_take]
      exact Nat.min_eq_left (Nat.le_of_lt h)
    refine ⟨Nat.le_of_eq hlen, ?_⟩
    show (if limit < (truncateTo limit s).length then _ else truncateTo limit s) = truncateTo limit s
    rw [hlen, if_neg (Nat.lt_irrefl limit)]
  · have heq : truncateTo limit s = s := by
      show (if limit < s.length then String.mk (s.data.take limit) else s) = s
      rw [if_neg h]
    rw [heq]
    exact ⟨Nat.le_of_not_lt h, by show (if limit < s.length then _ else s) = s; rw [if_neg h]⟩

/-- Witness for C10 at a concrete string and limit. -/
theorem c10_truncation_idempotent_witness :
    0 < 5 ∧ ((truncateTo 5 "hello world").length ≤ 5
      ∧ truncateTo 5 (truncateTo 5 "hello world") = truncateTo 5 "hello world") :=
  ⟨by decide, c10_truncation_idempotent "hello world" 5 (by decide)⟩

/-- C4 (spec-modelled): the `readDocument` operation resolves its URL as —
explicit `url` argument, else the single configured default link, else the
first entry of the configured comma-separated list of default links; with no
url and no configured defaults it fails with `MissingUrl` and issues no network
request. -/
theorem c4_readDocument_resolution :
    (∀ (u : String) (dl dll : Option String), resolveDocumentUrl (some u) dl dll = .ok u)
  ∧ (∀ (d : String) (dll : Option String), resolveDocumentUrl none (some d) dll = .ok d)
  ∧ (∀ l : String, resolveDocumentUrl none none (some l) = .ok ((splitChar ',' l).headD l))
  ∧ (∀ fetchBody : String → String,
      readDocumentModel none none none fetchBody = ⟨[], .error DocError.missingUrl⟩) := by
  refine ⟨fun u dl dll => rfl, fun d dll => rfl, fun l => ?_, fun fb => rfl⟩
  show (match splitChar ',' l with
        | x :: _ => Except.ok x
        | [] => Except.error DocError.missingUrl) = .ok ((splitChar ',' l).headD l)
  cases hs : splitChar ',' l with
  | nil => exact absurd hs (splitChar_ne_nil ',' l)
  | cons x rest => rfl

/-- C7 counterexample: `get_coder_job_details` produces the very same error for
two different URLs on the same failing response, and that error spells out only
the status and status text — so the error does not carry the URL, contrary to
the claim. -/
theorem c7_fetch_failure_counterexample :
    getCoderJobDetailsTool noResolve "https://jobs.ashbyhq.com/Coder/abc" none m404 none none none
      = getCoderJobDetailsTool noResolve "https://jobs.ashbyhq.com/Coder/xyz" none m404 none none none
  ∧ getCoderJobDetailsTool noResolve "https://jobs.ashbyhq.com/Coder/abc" none m404 none none none
      = .error "Failed to fetch job page: 404 Not Found"
  ∧ "https://jobs.ashbyhq.com/Coder/abc" ≠ "https://jobs.ashbyhq.com/Coder/xyz" :=
  ⟨rfl, rfl, by decide⟩

/-- C7 amended: for every tool, a fetch whose status is not in the success
range fails the whole invocation with an error carrying the numeric status and
the status text (the `fetch_and_parse_html` error also carries the URL); no
partial result is returned, and the error is independent of the response body,
payload or any extraction input — it is raised before extraction or parsing. -/
theorem c7_fetch_failure_amended : ∀ m : HttpMeta, statusOk m.status = false →
    (∀ url extract mcc ct doc,
        fetchAndParseHtmlTool url extract mcc m ct doc
          = .error ("Failed to fetch " ++ url ++ ": " ++ toString m.status ++ " " ++ m.statusText))
  ∧ (∀ appData, listCoderJobsTool m appData
        = .error ("Failed to fetch listings: " ++ toString m.status ++ " " ++ m.statusText))
  ∧ (∀ resolve url pathname appData ldjsonParsed applyHref,
        getCoderJobDetailsTool resolve url pathname m appData ldjsonParsed applyHref
          = .error ("Failed to fetch job page: " ++ toString m.status ++ " " ++ m.statusText)) := by
  intro m h
  refine ⟨fun url extract mcc ct doc => ?_, fun ad => ?_, fun r u pn ad l ah => ?_⟩ <;>
    simp [fetchAndParseHtmlTool, listCoderJobsTool, getCoderJobDetailsTool, h]

/-- Witness for C7's amended theorem at a concrete failing response. -/
theorem c7_fetch_failure_amended_witness :
    fetchAndParseHtmlTool "https://coder.com/about" none none m500 none emptyDoc
      = .error "Failed to fetch https://coder.com/about: 500 Internal Server Error"
  ∧ listCoderJobsTool m500 none
      = .error "Failed to fetch listings: 500 Internal Server Error" := by
  have h := c7_fetch_failure_amended m500 (by decide)
  exact ⟨(h.1 "https://coder.com/about" none none none emptyDoc).trans (by rfl),
    (h.2.1 none).trans (by rfl)⟩

/-- C2: in `list_coder_jobs`, the output compensation field is null whenever the
posting's display flag is `false` or absent — even when a compensation value is
present upstream — and (for a boolean-or-absent flag, which is what the payload
carries) it is populated only when the flag is `true`. -/
theorem c2_compensation_redaction : ∀ (p : Json) (j : JobSummary), makeJob p = some j →
    ((jsGet? p flagKey = none ∨ jsGet? p flagKey = some (Json.bool false)) →
      j.compensationTierSummary = Json.null)
  ∧ ((jsGet? p flagKey = none ∨ ∃ b, jsGet? p flagKey = some (Json.bool b)) →
      j.compensationTierSummary ≠ Json.null →
      jsGet? p flagKey = some (Json.bool true)) := by
  intro p j hmk
  have hcomp : j.compensationTierSummary =
      (if jsTruthyOpt (jsGet? p flagKey) then
        jsCoal (jsGet? p "compensationTierSummary") Json.null
      else Json.null) := by
    cases p <;> simp [makeJob] at hmk <;> rw [← hmk]
  constructor
  · rintro (hf | hf) <;> rw [hcomp, hf] <;> rfl
  · rintro (hf | ⟨b, hf⟩) hne
    · rw [hcomp, hf] at hne
      exact absurd rfl hne
    · cases b with
      | false => rw [hcomp, hf] at hne; exact absurd rfl hne
      | true => exact hf

/-- Witness for C2: a posting with display flag `false` and an upstream
compensation value is projected with a null compensation field. -/
theorem c2_compensation_redaction_witness :
    makeJob c2posting = some c2job ∧ c2job.compensationTierSummary = Json.null := by
  refine ⟨rfl, ?_⟩
  exact (c2_compensation_redaction c2posting c2job rfl).1 (Or.inr rfl)

/-- C5: in `get_coder_job_details`, the returned compensation field is taken
solely from the merged inline-payload record (`?? null`), with no JSON-LD
fallback and no display-flag check; on a concrete payload whose flag is `false`
but whose record carries a value, the detail tool returns that value while the
`list_coder_jobs` projection of the same record redacts it to null. -/
theorem c5_detail_compensation_unredacted :
    (∀ resolve url pn a (l l' : Option Json) (ah ah' : Option String),
        (getJobDetailCore resolve url pn a l ah).compensationTierSummary
          = (getJobDetailCore resolve url pn a l' ah').compensationTierSummary)
  ∧ (∀ resolve url pn a l ah,
        (getJobDetailCore resolve url pn a l ah).compensationTierSummary
          = jsCoal (jsGet? (detailBase (jobIdOfPathname pn) a) "compensationTierSummary")
              Json.null)
  ∧ (getJobDetailCore noResolve "https://jobs.ashbyhq.com/Coder/r1" (some "/Coder/r1")
        c5appData none none).compensationTierSummary = Json.str "$175K - $210K"
  ∧ jsGet? c5rec flagKey = some (Json.bool false)
  ∧ makeJob c5rec = some c5job
  ∧ c5job.compensationTierSummary = Json.null :=
  ⟨fun _ _ _ _ _ _ _ _ => rfl, fun _ _ _ _ _ _ => rfl, rfl, rfl, rfl, rfl⟩

/-- C8 counterexample: on the parsed-JSON value `null` with a predicate that
holds at `null`, the first preorder node satisfying the predicate exists, yet
`deepFind` returns `undefined` — the `node == null` guard returns before the
predicate is ever tested, contrary to the claim's "first node in depth-first
preorder that satisfies the given predicate". -/
theorem c8_deepFind_counterexample :
    Json.isNull Json.null = true
  ∧ deepFind Json.isNull Json.null = none
  ∧ (jsonPreorder Json.null).find? Json.isNull = some Json.null :=
  ⟨rfl, rfl, rfl⟩

/-- C8 amended: `deepFind` is a total function on parsed-JSON values and
returns the first node in depth-first preorder that is non-null and satisfies
the predicate (null nodes are skipped without being tested), or `undefined`
when there is none; the job-record predicate rejects null, so with it
`deepFind` returns exactly the first preorder node carrying a truthy `id`, a
string `title`, and — when a URL-derived job identifier is available — that
identifier as its `id`. -/
theorem c8_deepFind_amended : ∀ (p : Json → Bool) (n : Json) (jobId : Option String),
    deepFind p n = (jsonPreorder n).find? (fun x => !x.isNull && p x)
  ∧ deepFind (isJobRecord jobId) n = (jsonPreorder n).find? (isJobRecord jobId) := by
  intro p n jobId
  refine ⟨deepFind_eq_preorder p n, ?_⟩
  have hfun : (fun x => !x.isNull && isJobRecord jobId x) = isJobRecord jobId := by
    funext x
    cases x <;> rfl
  rw [deepFind_eq_preorder (isJobRecord jobId) n, hfun]

/-- C6: when links extraction is requested, the output is exactly the
document-order pairing of each raw non-empty href with its trimmed text,
truncated to the first 500 such anchors — anchors with an empty href are
dropped before the cap — and with 600 qualifying anchors exactly 500 links are
returned. -/
theorem c6_links_extraction : ∀ (doc : HtmlDoc) (url : String) (status : Nat) (ct : String)
    (ex : List Field) (mcc : Option Nat), Field.links ∈ ex →
    ((parseHtmlCore url status ct doc (some ex) mcc).links
        = some ((linkPairsSpec doc.anchors).take 500))
  ∧ ((linkPairsSpec doc.anchors).length = 600 →
      ((parseHtmlCore url status ct doc (some ex) mcc).links.getD []).length = 500) := by
  intro doc url status ct ex mcc hmem
  have hl : (parseHtmlCore url status ct doc (some ex) mcc).links
      = some (anchorLinks doc.anchors) := by
    simp [parseHtmlCore, hmem]
  refine ⟨?_, ?_⟩
  · rw [hl, anchorLinks_eq_spec]
  · intro h600
    rw [hl, anchorLinks_eq_spec]
    simp only [Option.getD_some, List.length_take, h600]
    omega

/-- Witness for C6 at a document with 600 anchors carrying non-empty hrefs. -/
theorem c6_links_extraction_witness :
    ((parseHtmlCore "https://example.com" 200 "" doc600 (some [Field.links]) none).links.getD
        []).length = 500 := by
  have h600 : (linkPairsSpec doc600.anchors).length = 600 :=
    length_filterMap_replicate 600 (Anchor.mk (some "https://example.com/x") "t")
      (fun a =>
        match a.href with
        | some h => if h = "" then none else some (Link.mk h (trimChars a.text))
        | none => none)
      (Link.mk "https://example.com/x" (trimChars "t")) rfl
  exact (c6_links_extraction doc600 "https://example.com" 200 "" [Field.links] none
    (by decide)).2 h600

set_option maxHeartbeats 1000000 in
/-- C9: the extractor's output object holds exactly the requested keys plus the
three always-present ones; an omitted `extract` defaults to all five fields and
an omitted `maxContentChars` defaults to 10000. -/
theorem c9_output_keys :
    (∀ doc url status ct (ex : List Field) mcc (k : String),
        k ∈ keysOf (parseHtmlCore url status ct doc (some ex) mcc)
          ↔ (k ∈ (["url", "status", "contentType"] : List String)
              ∨ ∃ f, f ∈ ex ∧ fieldName f = k))
  ∧ (∀ doc url status ct mcc,
        parseHtmlCore url status ct doc none mcc
          = parseHtmlCore url status ct doc (some allExtractFields) mcc)
  ∧ (∀ doc url status ct extract,
        parseHtmlCore url status ct doc extract none
          = parseHtmlCore url status ct doc extract (some 10000)) := by
  refine ⟨?_, fun doc url status ct mcc => ?_, fun doc url status ct extract => ?_⟩
  case refine_2 => simp only [parseHtmlCore, Option.getD_none, Option.getD_some]
  case refine_3 => simp only [parseHtmlCore, Option.getD_none, Option.getD_some]
  intro doc url status ct ex mcc k
  rw [mem_fields_iff]
  simp only [keysOf, parseHtmlCore, Option.getD_some]
  by_cases h1 : Field.title ∈ ex <;> by_cases h2 : Field.description ∈ ex <;>
    by_cases h3 : Field.headings ∈ ex <;> by_cases h4 : Field.links ∈ ex <;>
    by_cases h5 : Field.text ∈ ex <;>
    simp [h1, h2, h3, h4, h5] <;> tauto

/-- C3 counterexample: on a payload whose primary path holds a non-null
non-collection while the alternate path holds a two-entry collection, the claim
says the two alternate entries are returned, but the code takes the primary
value (the `??` chain only skips null/undefined) and then throws a `TypeError`
mapping over it. -/
theorem c3_postings_counterexample :
    jsChain c3fixBad ["jobBoard", "jobPostings"] = some (Json.str "notAnArray")
  ∧ jsChain c3fixBad ["jobPostingList", "jobPostings"] = some (Json.arr [c3post1, c3post2])
  ∧ listJobsFromAppData c3fixBad = .error "TypeError: postings.map is not a function" :=
  ⟨rfl, rfl, rfl⟩

/-- C3 amended: the postings list is located by probing `jobBoard.jobPostings`
then `jobPostingList.jobPostings`, taking the first non-nullish value — the
invocation fails if that value is not a collection — and treating the list as
empty when both are nullish; on the payload whose primary path is absent and
whose alternate path has two entries, exactly those two entries are returned in
payload order with `jobUrl` synthesized as `{sourceUrl}/{id}`. -/
theorem c3_postings_amended :
    (∀ a v : Json, jsChain a ["jobBoard", "jobPostings"] = some v → v ≠ Json.null →
        selectPostings a = v)
  ∧ (∀ a v : Json, jsNullish (jsChain a ["jobBoard", "jobPostings"]) = true →
        jsChain a ["jobPostingList", "jobPostings"] = some v → v ≠ Json.null →
        selectPostings a = v)
  ∧ (∀ a : Json, jsNullish (jsChain a ["jobBoard", "jobPostings"]) = true →
        jsNullish (jsChain a ["jobPostingList", "jobPostings"]) = true →
        listJobsFromAppData a = .ok ⟨sourceUrl, 0, []⟩)
  ∧ listJobsFromAppData c3fixAlternate = .ok ⟨sourceUrl, 2, [c3job1, c3job2]⟩ := by
  refine ⟨?_, ?_, ?_, rfl⟩
  · intro a v h hv
    unfold selectPostings
    rw [h]
    exact jsCoal_of_some rfl hv _
  · intro a v h1 h2 hv
    unfold selectPostings
    rw [jsCoal_of_nullish h1, h2]
    exact jsCoal_of_some rfl hv _
  · intro a h1 h2
    unfold listJobsFromAppData selectPostings
    rw [jsCoal_of_nullish h1, jsCoal_of_nullish h2]
    rfl

/-- Witness for C3's amended theorem: the primary path wins when present, the
alternate is used when the primary is absent, and both-absent yields an empty
listing. -/
theorem c3_postings_amended_witness :
    selectPostings c3fixPrimary = Json.arr [c3post1]
  ∧ selectPostings c3fixAlternate = Json.arr [c3post1, c3post2]
  ∧ listJobsFromAppData (Json.obj []) = .ok ⟨sourceUrl, 0, []⟩ :=
  ⟨c3_postings_amended.1 c3fixPrimary (Json.arr [c3post1]) rfl
      (fun hh => Json.noConfusion hh),
    c3_postings_amended.2.1 c3fixAlternate (Json.arr [c3post1, c3post2]) rfl rfl
      (fun hh => Json.noConfusion hh),
    c3_postings_amended.2.2.1 (Json.obj []) rfl rfl⟩

/-- C1 counterexample: on a payload where candidate B (the nested posting) has
no department, candidate A has department "Engineering" and candidate C has
department "Marketing", the claimed per-field precedence requires the merged
department to fall back to A's "Engineering"; the code instead selects B as the
whole base record and returns null for the department. -/
theorem c1_merge_counterexample :
    (deepFind isPostingWrapper c1fix).bind (fun w => jsGet? w "posting") = some c1B
  ∧ jsGet? c1B "departmentName" = none
  ∧ deepFind (isJobRecord none) c1fix = some c1A
  ∧ jsGet? c1A "departmentName" = some (Json.str "Engineering")
  ∧ selectLdjson (some c1ld) = some c1ld
  ∧ jsGet? c1ld "departmentName" = some (Json.str "Marketing")
  ∧ (getJobDetailCore noResolve "https://jobs.ashbyhq.com/Coder/j1" none c1fix (some c1ld)
        none).department = Json.null
  ∧ Json.null ≠ Json.str "Engineering" :=
  ⟨rfl, rfl, rfl, rfl, rfl, rfl, rfl, fun hh => Json.noConfusion hh⟩

/-- C1 amended: the resolver does not merge per-field across all three
candidates; it selects a single base record with record-level precedence B over
A (the nested posting, when present and non-null, supplies every inline field
even those it lacks, with no per-field fallback to A; the empty object when
neither candidate is found), and only then applies per-field fallbacks to the
JSON-LD candidate C: `title` and `descriptionHtml` fall back to C when the
base's value is falsy, `employmentType` and `publishedDate` fall back to C when
the base's value is nullish, while `department`, `team`, `location` and
`compensationTierSummary` are taken from the base alone. -/
theorem c1_merge_amended : ∀ (resolve : String → String → Option String) (url : String)
    (pn : Option String) (a : Json) (l : Option Json) (ah : Option String),
    ((∀ v : Json,
        (deepFind isPostingWrapper a).bind (fun w => jsGet? w "posting") = some v →
        v ≠ Json.null → detailBase (jobIdOfPathname pn) a = v)
      ∧ (jsNullish ((deepFind isPostingWrapper a).bind (fun w => jsGet? w "posting")) = true →
          ∀ w : Json, deepFind (isJobRecord (jobIdOfPathname pn)) a = some w →
          w ≠ Json.null → detailBase (jobIdOfPathname pn) a = w)
      ∧ (jsNullish ((deepFind isPostingWrapper a).bind (fun w => jsGet? w "posting")) = true →
          jsNullish (deepFind (isJobRecord (jobIdOfPathname pn)) a) = true →
          detailBase (jobIdOfPathname pn) a = Json.obj []))
  ∧ (getJobDetailCore resolve url pn a l ah).department
      = jsCoal (jsGet? (detailBase (jobIdOfPathname pn) a) "departmentName") Json.null
  ∧ (getJobDetailCore resolve url pn a l ah).team
      = jsCoal (jsGet? (detailBase (jobIdOfPathname pn) a) "teamName") Json.null
  ∧ (getJobDetailCore resolve url pn a l ah).location
      = jsCoal (jsGet? (detailBase (jobIdOfPathname pn) a) "locationName") Json.null
  ∧ (getJobDetailCore resolve url pn a l ah).compensationTierSummary
      = jsCoal (jsGet? (detailBase (jobIdOfPathname pn) a) "compensationTierSummary") Json.null
  ∧ (getJobDetailCore resolve url pn a l ah).title
      = jsOrJ (jsGet? (detailBase (jobIdOfPathname pn) a) "title")
          (jsOrJ ((selectLdjson l).bind (fun c => jsGet? c "title")) (Json.str ""))
  ∧ (getJobDetailCore resolve url pn a l ah).descriptionHtml
      = jsOrJ (jsGet? (detailBase (jobIdOfPathname pn) a) "descriptionHtml")
          (jsOrJ ((selectLdjson l).bind (fun c => jsGet? c "description")) (Json.str ""))
  ∧ (getJobDetailCore resolve url pn a l ah).employmentType
      = jsCoal (jsGet? (detailBase (jobIdOfPathname pn) a) "employmentType")
          (jsCoal ((selectLdjson l).bind (fun c => jsGet? c "employmentType")) Json.null)
  ∧ (getJobDetailCore resolve url pn a l ah).publishedDate
      = jsCoal (jsGet? (detailBase (jobIdOfPathname pn) a) "publishedDate")
          (jsCoal ((selectLdjson l).bind (fun c => jsGet? c "datePosted")) Json.null) := by
  intro resolve url pn a l ah
  refine ⟨⟨?_, ?_, ?_⟩, rfl, rfl, rfl, rfl, rfl, rfl, rfl, rfl⟩
  · intro v hv hne
    simp only [detailBase]
    rw [hv]
    exact jsCoal_of_some rfl hne _
  · intro hb w hw hne
    simp only [detailBase]
    rw [jsCoal_of_nullish hb, hw]
    exact jsCoal_of_some rfl hne _
  · intro hb ha
    simp only [detailBase]
    rw [jsCoal_of_nullish hb, jsCoal_of_nullish ha]

/-- Witness for C1's amended theorem: with no posting wrapper present, the base
record is candidate A and the department comes from it. -/
theorem c1_merge_amended_witness :
    detailBase none c1wFix = c1wRec
  ∧ (getJobDetailCore noResolve "u" none c1wFix none none).department = Json.str "Design" := by
  have h := c1_merge_amended noResolve "u" none c1wFix none none
  have hbase : detailBase (jobIdOfPathname none) c1wFix = c1wRec :=
    h.1.2.1 rfl c1wRec rfl (fun hh => Json.noConfusion hh)
  refine ⟨hbase, ?_⟩
  rw [h.2.1, hbase]
  rfl

end JobsAgent
